import Mathlib

/-!
Verification of the connection-handling pipeline of a minimal HTTP/1.1 server
written in Rust (`src/server.rs`, `src/errors.rs`, `src/main.rs`).

Shallow embedding conventions:
* Rust `&str` / `String` values are modelled as `Str := List Char`; byte
  sequences (`Vec<u8>`, `&[u8]`, file contents) as `List Nat` (each entry the
  value of one byte).  `strBytes` is the UTF-8 encoding of a `Str`, so that
  Rust's `str::len` (a byte length) is `(strBytes s).length`.
* Character classification (`char::is_whitespace`, `to_lowercase`) is modelled
  on the ASCII subset actually exercised by the protocol (Lean's
  `Char.isWhitespace` / `Char.toLower`).
* The `BufReader` line iteration of `HttpRequest::try_from` is modelled by a
  `TcpStream` structure holding the already line-split prefix of the stream
  (each line without its terminator, as `lines()` yields them) and the raw
  bytes following the header section (`rest`), from which the body is read.
* The filesystem (`std::fs`) is modelled concretely and symlink-free: a set of
  existing directories, a map from absolute normalized paths to file bytes and
  a current working directory.  `canonicalize` is resolution against the cwd
  plus lexical `.`/`..` normalization plus an existence check, which agrees
  with POSIX canonicalization in the absence of symlinks.
* The flate2 gzip encoder is modelled as an abstract codec `Gzip`
  (compression may fail, mirroring `compress_gzip`'s `Result`); theorems that
  need the compression/decompression round trip take it as a hypothesis.
* Rust `Path` values (`PathBuf`) are modelled by their components view: an
  `abs` flag plus the list of components, which is what `Path::join`,
  `Path::starts_with` and canonicalization operate on.
-/

deriving instance DecidableEq for Except

/-- Rust strings, modelled as lists of characters. -/
abbrev Str := List Char

/-- ASCII whitespace test used for `trim` / `split_whitespace`. -/
def wsChar (c : Char) : Bool := c.isWhitespace

/-- Rust `str::trim`: drop leading and trailing whitespace. -/
def strTrim (s : Str) : Str :=
  ((s.dropWhile wsChar).reverse.dropWhile wsChar).reverse

/-- Rust `str::to_lowercase` (ASCII). -/
def strLower (s : Str) : Str := s.map Char.toLower

/-- Auxiliary accumulator-based splitter for `split_whitespace`. -/
def splitWsAux : List Char → List Char → List Str
  | [], acc => if acc = [] then [] else [acc.reverse]
  | c :: cs, acc =>
    if wsChar c then
      if acc = [] then splitWsAux cs []
      else acc.reverse :: splitWsAux cs []
    else splitWsAux cs (c :: acc)

/-- Rust `str::split_whitespace().collect()`: maximal non-whitespace runs. -/
def splitWs (s : Str) : List Str := splitWsAux s []

/-- Rust `str::split_once(sep)`: the parts before and after the first occurrence
of `sep`, or `none` when `sep` does not occur. -/
def splitOnce (sep : Char) : Str → Option (Str × Str)
  | [] => none
  | c :: cs =>
    if c = sep then some ([], cs)
    else (splitOnce sep cs).map (fun p => (c :: p.1, p.2))

/-- Rust `str::split(sep).collect()`: all `sep`-separated segments, empties kept
(`"".split(sep)` yields one empty segment, as in Rust). -/
def splitOnC (sep : Char) : List Char → List (List Char)
  | [] => [[]]
  | c :: cs =>
    if c = sep then [] :: splitOnC sep cs
    else
      match splitOnC sep cs with
      | [] => [[c]]
      | s :: ss => (c :: s) :: ss

/-- Boolean list-prefix test (Rust `str::starts_with` on char sequences and
`Path::starts_with` on component sequences). -/
def isPre [DecidableEq α] : List α → List α → Bool
  | [], _ => true
  | _ :: _, [] => false
  | a :: as, b :: bs => a = b && isPre as bs

/-- Boolean substring test (Rust `str::contains`). -/
def isSub [DecidableEq α] (pat : List α) : List α → Bool
  | [] => pat.isEmpty
  | l@(_ :: rest) => isPre pat l || isSub pat rest

/-- UTF-8 encoding of one scalar value. -/
def utf8Bytes (c : Char) : List Nat :=
  let n := c.toNat
  if n < 0x80 then [n]
  else if n < 0x800 then [0xC0 + n / 64, 0x80 + n % 64]
  else if n < 0x10000 then
    [0xE0 + n / 4096, 0x80 + (n / 64) % 64, 0x80 + n % 64]
  else
    [0xF0 + n / 0x40000, 0x80 + (n / 4096) % 64, 0x80 + (n / 64) % 64,
     0x80 + n % 64]

/-- Rust `str::as_bytes` / `str::len` live here: the UTF-8 byte sequence of a
string. -/
def strBytes (s : Str) : List Nat := (s.map utf8Bytes).flatten

/-- UTF-8 continuation byte. -/
def isCont (b : Nat) : Bool := 0x80 ≤ b && b ≤ 0xBF

/-- Strict RFC 3629 UTF-8 validity of a byte sequence: exactly the sequences
on which Rust `String::from_utf8` / `fs::read_to_string` succeed. -/
def validUtf8 : List Nat → Bool
  | [] => true
  | b :: r =>
    if b ≤ 0x7F then validUtf8 r
    else if 0xC2 ≤ b && b ≤ 0xDF then
      match r with
      | b1 :: r2 => isCont b1 && validUtf8 r2
      | [] => false
    else if b = 0xE0 then
      match r with
      | b1 :: b2 :: r2 =>
          (0xA0 ≤ b1 && b1 ≤ 0xBF) && isCont b2 && validUtf8 r2
      | _ => false
    else if (0xE1 ≤ b && b ≤ 0xEC) || b = 0xEE || b = 0xEF then
      match r with
      | b1 :: b2 :: r2 => isCont b1 && isCont b2 && validUtf8 r2
      | _ => false
    else if b = 0xED then
      match r with
      | b1 :: b2 :: r2 =>
          (0x80 ≤ b1 && b1 ≤ 0x9F) && isCont b2 && validUtf8 r2
      | _ => false
    else if b = 0xF0 then
      match r with
      | b1 :: b2 :: b3 :: r2 =>
          (0x90 ≤ b1 && b1 ≤ 0xBF) && isCont b2 && isCont b3 && validUtf8 r2
      | _ => false
    else if 0xF1 ≤ b && b ≤ 0xF3 then
      match r with
      | b1 :: b2 :: b3 :: r2 =>
          isCont b1 && isCont b2 && isCont b3 && validUtf8 r2
      | _ => false
    else if b = 0xF4 then
      match r with
      | b1 :: b2 :: b3 :: r2 =>
          (0x80 ≤ b1 && b1 ≤ 0x8F) && isCont b2 && isCont b3 && validUtf8 r2
      | _ => false
    else false

/-- Value of an ASCII digit. -/
def digitsToNat (ds : List Char) : Nat :=
  ds.foldl (fun a c => a * 10 + (c.toNat - 48)) 0

/-- Rust `str::parse::<usize>()`: optional leading `+`, at least one digit, all
digits, value below `2^64` (overflow is a parse error on 64-bit targets). -/
def parseUsize (s : Str) : Option Nat :=
  let t := match s with
    | '+' :: r => r
    | _ => s
  if t ≠ [] ∧ t.all Char.isDigit then
    let n := digitsToNat t
    if n < 2 ^ 64 then some n else none
  else none

/-- From `errors.rs`: the error enum (payloads of `InvalidEncoding` and `Io`
dropped). -/
inductive Error where
  | invalidRequest
  | invalidEncoding
  | invalidProtocol
  | invalidMethod
  | ioErr
  deriving DecidableEq

/-- From `server.rs`: the closed enumeration of HTTP methods. -/
inductive HttpMethod where
  | GET
  | DELETE
  | POST
  | PUT
  | HEAD
  | CONNECT
  | OPTIONS
  | TRACE
  | PATCH
  deriving DecidableEq

/-- Model of `HttpMethod::from_str` (`impl FromStr for HttpMethod`). -/
def HttpMethod.fromStr (s : Str) : Except Error HttpMethod :=
  if s = ['G', 'E', 'T'] then .ok .GET
  else if s = ['D', 'E', 'L', 'E', 'T', 'E'] then .ok .DELETE
  else if s = ['P', 'O', 'S', 'T'] then .ok .POST
  else if s = ['P', 'U', 'T'] then .ok .PUT
  else if s = ['H', 'E', 'A', 'D'] then .ok .HEAD
  else if s = ['C', 'O', 'N', 'N', 'E', 'C', 'T'] then .ok .CONNECT
  else if s = ['O', 'P', 'T', 'I', 'O', 'N', 'S'] then .ok .OPTIONS
  else if s = ['T', 'R', 'A', 'C', 'E'] then .ok .TRACE
  else if s = ['P', 'A', 'T', 'C', 'H'] then .ok .PATCH
  else .error .invalidMethod

/-- The nine recognized method tokens, in source order. -/
def methodNames : List Str :=
  [['G', 'E', 'T'], ['D', 'E', 'L', 'E', 'T', 'E'], ['P', 'O', 'S', 'T'],
   ['P', 'U', 'T'], ['H', 'E', 'A', 'D'], ['C', 'O', 'N', 'N', 'E', 'C', 'T'],
   ['O', 'P', 'T', 'I', 'O', 'N', 'S'], ['T', 'R', 'A', 'C', 'E'],
   ['P', 'A', 'T', 'C', 'H']]

/-- The request-header map.  `HashMap::insert` overwrites on duplicate keys;
we model the map as an association list with the most recent insertion in
front, so lookup of the first match realizes last-write-wins. -/
abbrev Headers := List (Str × Str)

/-- Lookup, as `HashMap::get`. -/
def Headers.get (h : Headers) (k : Str) : Option Str :=
  (h.find? (fun p => p.1 == k)).map (·.2)

/-- From `server.rs`: a parsed request. -/
structure HttpRequest where
  target : Str
  method : HttpMethod
  headers : Headers
  body : Option (List Nat)
  deriving DecidableEq

/-- One connection's incoming byte stream, pre-split at line terminators:
`lines` are the CRLF/LF-delimited lines from the start of the stream through
the header section (what `BufReader::lines` yields, terminators stripped),
`rest` the raw bytes that follow them (the body source for `read_exact`). -/
structure TcpStream where
  lines : List Str
  rest : List Nat
  deriving DecidableEq

/-- Model of `BufReader::read_exact` into a buffer of length `n`: consumes exactly `n`
bytes, or fails the connection with an I/O error when the stream ends short.
Returns the filled buffer and the unconsumed remainder of the stream. -/
def readExact (n : Nat) (bs : List Nat) : Except Error (List Nat × List Nat) :=
  if n ≤ bs.length then .ok (bs.take n, bs.drop n) else .error .ioErr

/-- The header loop of `HttpRequest::try_from`: read lines until a blank line
(or end of stream); each non-blank line must split at a first `':'`, the key
is trimmed and lower-cased, the value trimmed, and the pair inserted. -/
def parseHeaders (ls : List Str) (acc : Headers) : Except Error Headers :=
  match ls with
  | [] => .ok acc
  | headerLine :: rest =>
    if strTrim headerLine = [] then .ok acc
    else
      match splitOnce ':' headerLine with
      | some (k, v) =>
          parseHeaders rest ((strLower (strTrim k), strTrim v) :: acc)
      | none => .error .invalidRequest

/-- Header key constant `content-length`. -/
def contentLengthK : Str :=
  ['c', 'o', 'n', 't', 'e', 'n', 't', '-', 'l', 'e', 'n', 'g', 't', 'h']

/-- Header key constant `accept-encoding`. -/
def acceptEncodingK : Str :=
  ['a', 'c', 'c', 'e', 'p', 't', '-', 'e', 'n', 'c', 'o', 'd', 'i', 'n', 'g']

/-- Header key constant `user-agent`. -/
def userAgentK : Str := ['u', 's', 'e', 'r', '-', 'a', 'g', 'e', 'n', 't']

/-- Model of `impl TryFrom<&TcpStream> for HttpRequest`: request line (method token,
then target token, extra tokens ignored), header loop, then — when a
`content-length` header is present — exactly that many body bytes; a body
read of zero bytes is represented as `none`. -/
def parseRequest (s : TcpStream) : Except Error HttpRequest :=
  match s.lines with
  | [] => .error .invalidRequest
  | requestLine :: restLines =>
    match splitWs requestLine with
    | [] => .error .invalidRequest
    | methodTok :: afterMethod =>
      match HttpMethod.fromStr methodTok with
      | .error e => .error e
      | .ok method =>
        match afterMethod with
        | [] => .error .invalidRequest
        | target :: _ =>
          match parseHeaders restLines [] with
          | .error e => .error e
          | .ok headers =>
            match headers.get contentLengthK with
            | some clStr =>
              match parseUsize clStr with
              | none => .error .invalidRequest
              | some n =>
                match readExact n s.rest with
                | .error e => .error e
                | .ok (buffer, _) =>
                    .ok { target := target, method := method,
                          headers := headers,
                          body := if buffer = [] then none else some buffer }
            | none =>
                .ok { target := target, method := method, headers := headers,
                      body := none }

/-- A Rust `PathBuf` in its components view: whether the path is absolute and
its list of components (what `Path::join`, `Path::starts_with` and
canonicalization operate on). -/
structure PathBuf where
  abs : Bool
  comps : List Str
  deriving DecidableEq

/-- Rust `Path::join(seg)` for a single segment (`seg` contains no `/`, being one
`'/'`-split piece of the target); joining the empty segment only adds a
trailing separator, which leaves the components unchanged. -/
def PathBuf.join (p : PathBuf) (seg : Str) : PathBuf :=
  if seg = [] then p else ⟨p.abs, p.comps ++ [seg]⟩

/-- Rust `Path::parent` as used on an already-resolved path. -/
def PathBuf.parent (p : PathBuf) : PathBuf :=
  ⟨p.abs, p.comps.dropLast⟩

/-- Rust `Path::starts_with`: component-wise prefix (and agreeing absoluteness). -/
def startsWithPB (p base : PathBuf) : Bool :=
  p.abs = base.abs && isPre base.comps p.comps

/-- One step of lexical path normalization: empty and `.` components vanish,
`..` pops the previous component (at the root it stays at the root, as in
POSIX), anything else is kept. -/
def normStep (acc : List Str) (c : Str) : List Str :=
  if c = [] ∨ c = ['.'] then acc
  else if c = ['.', '.'] then acc.dropLast
  else acc ++ [c]

/-- Lexical `.`/`..` normalization of a component list. -/
def normComps (cs : List Str) : List Str := cs.foldl normStep []

/-- The filesystem model (symlink-free): existing directories, file contents
keyed by absolute normalized path, and the process working directory. -/
structure FS where
  cwd : List Str
  dirs : List PathBuf
  files : List (PathBuf × List Nat)
  deriving DecidableEq

/-- Resolve a path against the working directory and normalize it: the
absolute, symlink-free form the OS resolves the path to. -/
def FS.resolve (fs : FS) (p : PathBuf) : PathBuf :=
  ⟨true, normComps (if p.abs then p.comps else fs.cwd ++ p.comps)⟩

/-- Rust `Path::exists` on an already-resolved path. -/
def FS.existsP (fs : FS) (p : PathBuf) : Bool :=
  fs.dirs.contains p || (fs.files.map Prod.fst).contains p

/-- Rust `Path::canonicalize`: resolve and normalize, failing when the result does
not exist. -/
def FS.canon (fs : FS) (p : PathBuf) : Option PathBuf :=
  let n := fs.resolve p
  if fs.existsP n then some n else none

/-- Lookup of a resolved path in the file map. -/
def findFile (files : List (PathBuf × List Nat)) (p : PathBuf) :
    Option (List Nat) :=
  (files.find? (fun e => e.1 == p)).map (·.2)

/-- Rust `fs::read_to_string`: read the file's bytes and require them to be valid
UTF-8 (both a missing/unreadable file and invalid UTF-8 are `Err`). -/
def FS.readToString (fs : FS) (p : PathBuf) : Option (List Nat) :=
  match findFile fs.files (fs.resolve p) with
  | some b => if validUtf8 b then some b else none
  | none => none

/-- Rust `fs::write`: create or truncate the file at the resolved path,
overwriting existing contents; fails when the target is a directory or its
parent directory does not exist. -/
def FS.writeFile (fs : FS) (p : PathBuf) (b : List Nat) : Option FS :=
  let n := fs.resolve p
  if n.comps = [] then none
  else if fs.dirs.contains n then none
  else if fs.dirs.contains n.parent then
    some { fs with files := (n, b) :: fs.files.filter (fun e => e.1 != n) }
  else none

/-- The flate2 gzip codec, abstractly: `compress` is
`GzEncoder::write_all` + `finish` (which may fail), `decompress` the inverse
stream decoder. -/
structure Gzip where
  compress : List Nat → Option (List Nat)
  decompress : List Nat → Option (List Nat)

/-- From `main.rs`: the CLI configuration — the optional `--directory` base. -/
structure Args where
  directory : Option PathBuf
  deriving DecidableEq

/-- A response as the handler assembles it: status plus the headers the
format strings emit and the raw body bytes appended after the blank line. -/
structure HttpResponse where
  status : Nat
  contentType : Option Str := none
  contentEncoding : Option Str := none
  contentLength : Option Nat := none
  body : List Nat := []
  deriving DecidableEq

/-- A bare status-line response such as `HTTP/1.1 400 Bad Request\r\n\r\n`. -/
def mkStatus (s : Nat) : HttpResponse := { status := s }

/-- Route-target constant `/`. -/
def rootTok : Str := ['/']

/-- Route-target constant `/file`. -/
def fileTok : Str := ['/', 'f', 'i', 'l', 'e']

/-- Route-target constant `/echo`. -/
def echoTok : Str := ['/', 'e', 'c', 'h', 'o']

/-- Route-target constant `/user-agent`. -/
def uaTok : Str := ['/', 'u', 's', 'e', 'r', '-', 'a', 'g', 'e', 'n', 't']

/-- Substring looked for in `accept-encoding`, and the produced
`Content-Encoding` value. -/
def gzipTok : Str := ['g', 'z', 'i', 'p']

/-- The `Content-Type` constant `text/plain`. -/
def ctTextPlain : Str := ['t', 'e', 'x', 't', '/', 'p', 'l', 'a', 'i', 'n']

/-- The `Content-Type` constant `application/octet-stream`. -/
def ctOctetStream : Str :=
  ['a', 'p', 'p', 'l', 'i', 'c', 'a', 't', 'i', 'o', 'n', '/',
   'o', 'c', 't', 'e', 't', '-', 's', 't', 'r', 'e', 'a', 'm']

/-- The gzip content negotiation performed identically (inlined three times in
the source) by the `/file` GET, `/echo` and `/user-agent` success paths: if an
`accept-encoding` header is present and contains the substring `gzip`,
compress and answer with `Content-Encoding: gzip` and the compressed length
(500 when compression fails); otherwise answer the bytes uncompressed with
their own length. -/
def respondWith (gz : Gzip) (headers : Headers) (ctype : Str)
    (contents : List Nat) : HttpResponse :=
  match headers.get acceptEncodingK with
  | some encoding =>
    if isSub gzipTok encoding then
      match gz.compress contents with
      | some body =>
          { status := 200, contentType := some ctype,
            contentEncoding := some gzipTok,
            contentLength := some body.length, body := body }
      | none => mkStatus 500
    else
      { status := 200, contentType := some ctype,
        contentLength := some contents.length, body := contents }
  | none =>
      { status := 200, contentType := some ctype,
        contentLength := some contents.length, body := contents }

/-- The `POST /file…` match arm of `Server::handle_request`. -/
def handleFilePost (fs : FS) (dir : Option PathBuf) (target : Str)
    (body : Option (List Nat)) : HttpResponse × FS :=
  match dir with
  | some parentDir =>
    match (splitOnC '/' target).getLast? with
    | some fileName =>
      let filePath := parentDir.join fileName
      match body with
      | some contents =>
        match fs.writeFile filePath contents with
        | some fs2 => (mkStatus 201, fs2)
        | none => (mkStatus 500, fs)
      | none => (mkStatus 400, fs)
    | none => (mkStatus 400, fs)
  | none => (mkStatus 503, fs)

/-- The `GET /file…` match arm of `Server::handle_request`: canonicalize
`<base>/<last segment>`, require the canonical path to start with the
configured base directory, require existence, read as UTF-8, negotiate
gzip. -/
def handleFileGet (fs : FS) (gz : Gzip) (dir : Option PathBuf)
    (headers : Headers) (target : Str) : HttpResponse :=
  match dir with
  | some parentDir =>
    match (splitOnC '/' target).getLast? with
    | some fileName =>
      let filePath := parentDir.join fileName
      match fs.canon filePath with
      | some fullFilePath =>
        if startsWithPB fullFilePath parentDir then
          if fs.existsP fullFilePath then
            match fs.readToString filePath with
            | some contents => respondWith gz headers ctOctetStream contents
            | none => mkStatus 500
          else mkStatus 404
        else mkStatus 400
      | none => mkStatus 404
    | none => mkStatus 400
  | none => mkStatus 503

/-- The `GET /echo…` match arm of `Server::handle_request`. -/
def handleEcho (gz : Gzip) (headers : Headers) (target : Str) : HttpResponse :=
  match (splitOnC '/' target).getLast? with
  | some echoStr => respondWith gz headers ctTextPlain (strBytes echoStr)
  | none => mkStatus 400

/-- The `GET /user-agent…` match arm of `Server::handle_request`. -/
def handleUserAgent (gz : Gzip) (headers : Headers) : HttpResponse :=
  match headers.get userAgentK with
  | some userAgentHeader =>
      respondWith gz headers ctTextPlain (strBytes userAgentHeader)
  | none => mkStatus 400

/-- Model of `Server::handle_request`: the match over `(method, target)` with its
`starts_with` guards, in source order; returns the response and the
(possibly updated, for POST) filesystem. -/
def handleRequest (fs : FS) (gz : Gzip) (conf : Args) (req : HttpRequest) :
    HttpResponse × FS :=
  if req.method = HttpMethod.GET ∧ req.target = rootTok then
    (mkStatus 200, fs)
  else if req.method = HttpMethod.POST ∧ isPre fileTok req.target then
    handleFilePost fs conf.directory req.target req.body
  else if req.method = HttpMethod.GET ∧ isPre fileTok req.target then
    (handleFileGet fs gz conf.directory req.headers req.target, fs)
  else if req.method = HttpMethod.GET ∧ isPre echoTok req.target then
    (handleEcho gz req.headers req.target, fs)
  else if req.method = HttpMethod.GET ∧ isPre uaTok req.target then
    (handleUserAgent gz req.headers, fs)
  else (mkStatus 404, fs)

/-- Reason phrases of the status lines the source emits. -/
def reasonFor (s : Nat) : Str :=
  if s = 200 then "OK".toList
  else if s = 201 then "Created".toList
  else if s = 400 then "Bad Request".toList
  else if s = 404 then "Not Found".toList
  else if s = 500 then "Internal Server Error".toList
  else "Service Unavailable".toList

/-- Decimal rendering of a number. -/
def natToStr (n : Nat) : Str := (toString n).toList

/-- CRLF. -/
def crlf : Str := ['\r', '\n']

/-- The textual part of a serialized response: status line, header lines in
the order of the source's format strings, and the blank line. -/
def headerBlock (r : HttpResponse) : List Nat :=
  strBytes
    ("HTTP/1.1 ".toList ++ natToStr r.status ++ [' '] ++ reasonFor r.status ++
      crlf ++
      (match r.contentType with
       | some ct => "Content-Type: ".toList ++ ct ++ crlf
       | none => []) ++
      (match r.contentEncoding with
       | some ce => "Content-Encoding: ".toList ++ ce ++ crlf
       | none => []) ++
      (match r.contentLength with
       | some n => "Content-Length: ".toList ++ natToStr n ++ crlf
       | none => []) ++
      crlf)

/-- Model of `stream.write_all(&response)`: the full byte sequence written back — the
header block followed by the body bytes after the blank line. -/
def renderResponse (r : HttpResponse) : List Nat :=
  headerBlock r ++ r.body

/-- The per-connection job body from `Server::listen`: parse, handle, write;
every byte written to the connection.  A parse failure writes nothing (the
error is only logged and the connection dropped). -/
def connectionOutput (fs : FS) (gz : Gzip) (conf : Args) (s : TcpStream) :
    List Nat :=
  match parseRequest s with
  | .error _ => []
  | .ok req => renderResponse (handleRequest fs gz conf req).1

/-- The error logged (via `eprintln!`) by the job body, if any. -/
def connectionLog (s : TcpStream) : Option Error :=
  match parseRequest s with
  | .error e => some e
  | .ok _ => none

/-- Identity codec: a stand-in implementation of the `Gzip` interface
satisfying the compression round-trip law, used to evaluate the handler on
concrete inputs. -/
def gzId : Gzip := ⟨fun b => some b, fun b => some b⟩

/-- Fixture path: the filesystem root. -/
def dirRoot : PathBuf := ⟨true, []⟩

/-- Fixture path: the base directory `/d`. -/
def dirD : PathBuf := ⟨true, [['d']]⟩

/-- Fixture path: `/d/g`. -/
def fileG : PathBuf := ⟨true, [['d'], ['g']]⟩

/-- Fixture filesystem: `/` and `/d` exist as directories, `/d/g` holds one
invalid-UTF-8 byte. -/
def fsFix : FS := ⟨[], [dirRoot, dirD], [(fileG, [255])]⟩

/-- Fixture configuration with base directory `/d`. -/
def confD : Args := ⟨some dirD⟩

/-- Fixture header map carrying `accept-encoding: gzip`. -/
def hdrsAE : Headers := [(acceptEncodingK, gzipTok)]

/-- Fixture request: `GET /file/..`. -/
def reqTrav : HttpRequest := ⟨"/file/..".toList, .GET, [], none⟩

/-- Fixture request: `GET /file2` (no separator after the `/file` prefix). -/
def reqFile2 : HttpRequest := ⟨"/file2".toList, .GET, [], none⟩

/-- Fixture request: `GET /echo/ab`. -/
def reqEchoFix : HttpRequest := ⟨"/echo/ab".toList, .GET, [], none⟩

/-- Fixture request: `GET /file/g` (a stored non-UTF-8 file). -/
def reqBadUtf : HttpRequest := ⟨"/file/g".toList, .GET, [], none⟩

/-- Fixture request: `POST /file/h` with a valid-UTF-8 body. -/
def reqPostOk : HttpRequest := ⟨"/file/h".toList, .POST, [], some [104, 105]⟩

/-- Fixture request: `GET /file/h`. -/
def reqGetOk : HttpRequest := ⟨"/file/h".toList, .GET, [], none⟩

/-- Fixture request: `POST /file/n` with a non-UTF-8 body. -/
def reqPostN : HttpRequest := ⟨"/file/n".toList, .POST, [], some [255]⟩

/-- Fixture request: `GET /file/n`. -/
def reqGetN : HttpRequest := ⟨"/file/n".toList, .GET, [], none⟩

/-- Fixture stream: a parseable POST with `Content-Length: 3` and four
pending body bytes. -/
def sFix : TcpStream :=
  ⟨["POST /file/f HTTP/1.1".toList, "Content-Length: 3".toList, []],
   [72, 105, 33, 99]⟩

/-- Fixture stream: a request line with an unrecognized method token. -/
def sBadFix : TcpStream := ⟨["FOO / HTTP/1.1".toList], []⟩

/-- Splitting never yields an empty segment list (even on the empty string). -/
theorem splitOnC_ne_nil (sep : Char) (l : List Char) : splitOnC sep l ≠ [] := by
  induction l with
  | nil => simp [splitOnC]
  | cons c cs ih =>
    simp only [splitOnC]
    split
    · simp
    · split
      · simp
      · simp

/-- A non-empty list has a last element. -/
theorem exists_getLast?_of_ne_nil {α : Type} {l : List α} (h : l ≠ []) :
    ∃ a, l.getLast? = some a :=
  Option.isSome_iff_exists.1 (List.getLast?_isSome.2 h)

/-- The test `isPre` decides the prefix relation. -/
theorem isPre_iff {α : Type} [DecidableEq α] (u v : List α) :
    isPre u v = true ↔ u <+: v := by
  induction u generalizing v with
  | nil => simp [isPre]
  | cons a as ih =>
    cases v with
    | nil => simp [isPre]
    | cons b bs => simp [isPre, List.cons_prefix_cons, ih]

/-- A list is a prefix of itself extended. -/
theorem isPre_append {α : Type} [DecidableEq α] (u w : List α) :
    isPre u (u ++ w) = true :=
  (isPre_iff u (u ++ w)).2 (List.prefix_append u w)

/-- Prefixes are no longer than the whole. -/
theorem length_le_of_isPre {α : Type} [DecidableEq α] {u v : List α}
    (h : isPre u v = true) : u.length ≤ v.length :=
  ((isPre_iff u v).1 h).length_le

/-- A path component that lexical normalization keeps as-is. -/
abbrev cleanComp (c : Str) : Prop := c ≠ [] ∧ c ≠ ['.'] ∧ c ≠ ['.', '.']

/-- The step `normStep` preserves cleanliness of the accumulator. -/
theorem normStep_clean {acc : List Str} {c : Str}
    (h : ∀ x ∈ acc, cleanComp x) : ∀ x ∈ normStep acc c, cleanComp x := by
  unfold normStep
  split
  · exact h
  · split
    · exact fun x hx => h x (List.dropLast_subset _ hx)
    · intro x hx
      rcases List.mem_append.1 hx with h1 | h1
      · exact h x h1
      · rw [List.mem_singleton] at h1
        subst h1
        rename_i h2 h3
        push_neg at h2
        exact ⟨h2.1, h2.2, h3⟩

/-- The normalization fold only produces clean components. -/
theorem foldl_normStep_clean (cs : List Str) :
    ∀ acc, (∀ x ∈ acc, cleanComp x) →
      ∀ x ∈ cs.foldl normStep acc, cleanComp x := by
  induction cs with
  | nil => intro acc h; simpa using h
  | cons c cs ih => intro acc h; exact ih _ (normStep_clean h)

/-- Normalized component lists are clean. -/
theorem normComps_clean (cs : List Str) : ∀ x ∈ normComps cs, cleanComp x :=
  foldl_normStep_clean cs [] (by simp)

/-- On a clean component `normStep` just appends. -/
theorem normStep_fix {acc : List Str} {c : Str} (hc : cleanComp c) :
    normStep acc c = acc ++ [c] := by
  unfold normStep
  rw [if_neg (by simp [hc.1, hc.2.1]), if_neg hc.2.2]

/-- On clean input the normalization fold just appends. -/
theorem foldl_normStep_fix :
    ∀ (cs : List Str), (∀ x ∈ cs, cleanComp x) →
      ∀ acc, cs.foldl normStep acc = acc ++ cs := by
  intro cs
  induction cs with
  | nil => intro _ acc; simp
  | cons c cs ih =>
    intro h acc
    simp only [List.foldl_cons]
    rw [normStep_fix (h c (by simp)),
      ih (fun x hx => h x (by simp [hx])) (acc ++ [c])]
    simp

/-- Clean component lists are fixed points of normalization. -/
theorem normComps_fix {cs : List Str} (h : ∀ x ∈ cs, cleanComp x) :
    normComps cs = cs := by
  unfold normComps
  rw [foldl_normStep_fix cs h []]
  rfl

/-- A prefix of a clean component list is clean. -/
theorem clean_of_isPre {u v : List Str} (hp : isPre u v = true)
    (h : ∀ x ∈ v, cleanComp x) : ∀ x ∈ u, cleanComp x :=
  fun x hx => h x (((isPre_iff u v).1 hp).subset hx)

/-- The negotiation helper only ever answers 200 or 500. -/
theorem respondWith_status (gz : Gzip) (h : Headers) (ct : Str)
    (b : List Nat) :
    (respondWith gz h ct b).status = 200 ∨
      (respondWith gz h ct b).status = 500 := by
  unfold respondWith
  split
  · split
    · split
      · left; rfl
      · right; rfl
    · left; rfl
  · left; rfl

/-- The `Content-Length`/body-length invariant of one response. -/
abbrev clOk (r : HttpResponse) : Prop :=
  ∀ n, r.contentLength = some n → n = r.body.length

theorem clOk_mkStatus (s : Nat) : clOk (mkStatus s) := fun _ h => nomatch h

theorem clOk_respondWith (gz : Gzip) (hd : Headers) (ct : Str)
    (b : List Nat) : clOk (respondWith gz hd ct b) := by
  unfold respondWith
  split
  · split
    · split
      · exact fun n h => (Option.some.inj h).symm
      · exact clOk_mkStatus 500
    · exact fun n h => (Option.some.inj h).symm
  · exact fun n h => (Option.some.inj h).symm

theorem clOk_handleFileGet (fs : FS) (gz : Gzip) (dir : Option PathBuf)
    (hd : Headers) (tgt : Str) : clOk (handleFileGet fs gz dir hd tgt) := by
  unfold handleFileGet
  dsimp only
  repeat' split
  all_goals first
    | exact clOk_respondWith _ _ _ _
    | exact clOk_mkStatus _

theorem clOk_handleFilePost (fs : FS) (dir : Option PathBuf) (tgt : Str)
    (body : Option (List Nat)) : clOk (handleFilePost fs dir tgt body).1 := by
  unfold handleFilePost
  dsimp only
  repeat' split
  all_goals exact clOk_mkStatus _

theorem clOk_handleEcho (gz : Gzip) (hd : Headers) (tgt : Str) :
    clOk (handleEcho gz hd tgt) := by
  unfold handleEcho
  split
  · exact clOk_respondWith _ _ _ _
  · exact clOk_mkStatus _

theorem clOk_handleUserAgent (gz : Gzip) (hd : Headers) :
    clOk (handleUserAgent gz hd) := by
  unfold handleUserAgent
  split
  · exact clOk_respondWith _ _ _ _
  · exact clOk_mkStatus _

/-- A token outside the nine-name table parses to `InvalidMethod`. -/
theorem fromStr_eq_invalidMethod {m : Str} (h : m ∉ methodNames) :
    HttpMethod.fromStr m = .error .invalidMethod := by
  unfold HttpMethod.fromStr
  repeat' split
  all_goals simp_all [methodNames]

/-- C10: for every GET `/echo…` request the 400 branch of the echo handler is
unreachable — splitting any target on `'/'` always yields a final (possibly
empty) segment, so the handler always answers via the negotiation helper
(200, or 500 on compression failure) with that final segment as the body. -/
theorem C10_echo_400_unreachable (gz : Gzip) (headers : Headers)
    (target : Str) :
    ∃ s, (splitOnC '/' target).getLast? = some s
      ∧ handleEcho gz headers target
          = respondWith gz headers ctTextPlain (strBytes s)
      ∧ (handleEcho gz headers target).status ≠ 400
      ∧ ((handleEcho gz headers target).status = 200
          ∨ (handleEcho gz headers target).status = 500) := by
  obtain ⟨s, hs⟩ := exists_getLast?_of_ne_nil (splitOnC_ne_nil '/' target)
  have he : handleEcho gz headers target
      = respondWith gz headers ctTextPlain (strBytes s) := by
    unfold handleEcho
    rw [hs]
  refine ⟨s, hs, he, ?_, ?_⟩
  · rw [he]
    rcases respondWith_status gz headers ctTextPlain (strBytes s) with h | h <;>
      omega
  · rw [he]
    exact respondWith_status gz headers ctTextPlain (strBytes s)

/-- C8: every response the handler produces keeps the `Content-Length`
header, when present, equal to the number of body bytes, and the serialized
response appends exactly those body bytes after the blank line. -/
theorem C8_content_length_exact (fs : FS) (gz : Gzip) (conf : Args)
    (req : HttpRequest) :
    (∀ n, (handleRequest fs gz conf req).1.contentLength = some n →
        n = (handleRequest fs gz conf req).1.body.length)
    ∧ renderResponse (handleRequest fs gz conf req).1
        = headerBlock (handleRequest fs gz conf req).1
            ++ (handleRequest fs gz conf req).1.body := by
  refine ⟨?_, rfl⟩
  unfold handleRequest
  repeat' split
  all_goals first
    | exact clOk_mkStatus _
    | exact clOk_handleFilePost _ _ _ _
    | exact clOk_handleFileGet _ _ _ _ _
    | exact clOk_handleEcho _ _ _
    | exact clOk_handleUserAgent _ _

/-- C5: for every non-blank header line, absence of a `':'`-delimited
key/value pair fails parsing with `InvalidRequest`; an accepted line is
inserted with the key trimmed and lower-cased and the value trimmed. -/
theorem C5_header_line (line : Str) (rest : List Str) (acc : Headers)
    (hnb : strTrim line ≠ []) :
    (splitOnce ':' line = none →
       parseHeaders (line :: rest) acc = .error .invalidRequest)
    ∧ ∀ k v, splitOnce ':' line = some (k, v) →
        parseHeaders (line :: rest) acc
          = parseHeaders rest ((strLower (strTrim k), strTrim v) :: acc) := by
  constructor
  · intro h
    unfold parseHeaders
    rw [if_neg hnb, h]
  · intro k v h
    conv_lhs => unfold parseHeaders
    rw [if_neg hnb, h]

/-- C6: a first request-line token outside the nine-name method table makes
parsing fail with the typed error `InvalidMethod`; the connection job then
writes no response bytes at all — the error is only logged and the
connection dropped. -/
theorem C6_invalid_method_no_response (fs : FS) (gz : Gzip) (conf : Args)
    (s : TcpStream) (rl : Str) (ls : List Str) (m : Str) (ts : List Str)
    (hlines : s.lines = rl :: ls)
    (htok : splitWs rl = m :: ts)
    (hbad : m ∉ methodNames) :
    parseRequest s = .error .invalidMethod
    ∧ connectionOutput fs gz conf s = []
    ∧ connectionLog s = some .invalidMethod := by
  have hp : parseRequest s = .error .invalidMethod := by
    unfold parseRequest
    rw [hlines]
    dsimp only
    rw [htok]
    dsimp only
    rw [fromStr_eq_invalidMethod hbad]
  refine ⟨hp, ?_, ?_⟩
  · unfold connectionOutput
    rw [hp]
  · unfold connectionLog
    rw [hp]

/-- C4: with a well-formed request line and header section and a
`content-length` header: a parseable length `n` makes the parser read the
body as exactly the first `n` stream bytes — never fewer (a shorter stream
is an I/O failure fatal to the connection), never more (the remainder is
exactly the stream minus those `n` bytes) — with `n = 0` represented as an
absent body; an unparseable value fails with `InvalidRequest`. -/
theorem C4_content_length_exact_read (s : TcpStream) (rl : Str)
    (hls : List Str) (m tgt : Str) (ts : List Str) (M : HttpMethod)
    (H : Headers) (v : Str)
    (h1 : s.lines = rl :: hls)
    (h2 : splitWs rl = m :: tgt :: ts)
    (h3 : HttpMethod.fromStr m = .ok M)
    (h4 : parseHeaders hls [] = .ok H)
    (h5 : H.get contentLengthK = some v) :
    (∀ n, parseUsize v = some n →
       (n ≤ s.rest.length →
          parseRequest s
              = .ok ⟨tgt, M, H, if n = 0 then none else some (s.rest.take n)⟩
            ∧ (s.rest.take n).length = n
            ∧ s.rest.take n ++ s.rest.drop n = s.rest)
       ∧ (s.rest.length < n → parseRequest s = .error .ioErr))
    ∧ (parseUsize v = none → parseRequest s = .error .invalidRequest) := by
  have base : parseRequest s
      = match parseUsize v with
        | none => .error .invalidRequest
        | some n =>
          match readExact n s.rest with
          | .error e => .error e
          | .ok (buffer, _) =>
              .ok ⟨tgt, M, H, if buffer = [] then none else some buffer⟩ := by
    unfold parseRequest
    rw [h1]
    dsimp only
    rw [h2]
    dsimp only
    rw [h3]
    dsimp only
    rw [h4]
    dsimp only
    rw [h5]
  constructor
  · intro n hn
    constructor
    · intro hle
      have hre : readExact n s.rest = .ok (s.rest.take n, s.rest.drop n) := by
        unfold readExact
        rw [if_pos hle]
      refine ⟨?_, ?_, List.take_append_drop n s.rest⟩
      · rw [base, hn]
        dsimp only
        rw [hre]
        dsimp only
        rcases Nat.eq_zero_or_pos n with rfl | hpos
        · simp
        · have htake : ¬ s.rest.take n = [] := by
            rw [List.take_eq_nil_iff]
            rintro (h | h)
            · omega
            · rw [h] at hle
              simp at hle
              omega
          rw [if_neg htake, if_neg (by omega : ¬ n = 0)]
      · rw [List.length_take]
        exact Nat.min_eq_left hle
    · intro hlt
      have hre : readExact n s.rest = .error .ioErr := by
        unfold readExact
        rw [if_neg (by omega)]
      rw [base, hn]
      dsimp only
      rw [hre]
  · intro hn
    rw [base, hn]

/-- C7: dispatch matches targets by `starts_with` on the raw target string in
source order — exact `/` (GET), `/file` (POST), `/file` (GET), `/echo` (GET),
`/user-agent` (GET), else 404 — so a target like `/file2`, whose `/file`
prefix is not followed by a separator, is still routed to the `/file`
family. -/
theorem C7_prefix_routing (fs : FS) (gz : Gzip) (conf : Args)
    (req : HttpRequest) :
    (req.method = HttpMethod.GET → req.target = rootTok →
       handleRequest fs gz conf req = (mkStatus 200, fs))
    ∧ (req.method = HttpMethod.POST → isPre fileTok req.target = true →
        handleRequest fs gz conf req
          = handleFilePost fs conf.directory req.target req.body)
    ∧ (req.method = HttpMethod.GET → isPre fileTok req.target = true →
        handleRequest fs gz conf req
          = (handleFileGet fs gz conf.directory req.headers req.target, fs))
    ∧ (req.method = HttpMethod.GET → isPre echoTok req.target = true →
        handleRequest fs gz conf req
          = (handleEcho gz req.headers req.target, fs))
    ∧ (req.method = HttpMethod.GET → isPre uaTok req.target = true →
        handleRequest fs gz conf req
          = (handleUserAgent gz req.headers, fs))
    ∧ (¬ (req.method = HttpMethod.GET ∧ req.target = rootTok) →
       ¬ (req.method = HttpMethod.POST ∧ isPre fileTok req.target = true) →
       ¬ (req.method = HttpMethod.GET ∧ isPre fileTok req.target = true) →
       ¬ (req.method = HttpMethod.GET ∧ isPre echoTok req.target = true) →
       ¬ (req.method = HttpMethod.GET ∧ isPre uaTok req.target = true) →
        handleRequest fs gz conf req = (mkStatus 404, fs))
    ∧ (isPre ['/', 'f', 'i', 'l', 'e', '2'] req.target = true →
        isPre fileTok req.target = true) := by
  obtain ⟨tgt, mth, hd, bd⟩ := req
  refine ⟨?_, ?_, ?_, ?_, ?_, ?_, ?_⟩
  · intro hm ht
    subst hm
    subst ht
    rfl
  · intro hm hpre
    subst hm
    unfold handleRequest
    rw [if_neg (by rintro ⟨h, -⟩; cases h), if_pos ⟨rfl, hpre⟩]
  · intro hm hpre
    subst hm
    have hroot : (⟨tgt, .GET, hd, bd⟩ : HttpRequest).target ≠ rootTok := by
      intro h
      have hlen := length_le_of_isPre hpre
      rw [h] at hlen
      simp [fileTok, rootTok] at hlen
    unfold handleRequest
    rw [if_neg (by rintro ⟨-, h⟩; exact hroot h),
      if_neg (by rintro ⟨h, -⟩; cases h), if_pos ⟨rfl, hpre⟩]
  · intro hm hpre
    subst hm
    obtain ⟨w, hw⟩ := (isPre_iff echoTok tgt).1 hpre
    subst hw
    unfold handleRequest
    rw [if_neg (by rintro ⟨-, h⟩; simp [echoTok, rootTok] at h),
      if_neg (by rintro ⟨h, -⟩; cases h),
      if_neg (by rintro ⟨-, h⟩; rw [show isPre fileTok (echoTok ++ w) = false from rfl] at h; cases h),
      if_pos ⟨rfl, hpre⟩]
  · intro hm hpre
    subst hm
    obtain ⟨w, hw⟩ := (isPre_iff uaTok tgt).1 hpre
    subst hw
    unfold handleRequest
    rw [if_neg (by rintro ⟨-, h⟩; simp [uaTok, rootTok] at h),
      if_neg (by rintro ⟨h, -⟩; cases h),
      if_neg (by rintro ⟨-, h⟩; rw [show isPre fileTok (uaTok ++ w) = false from rfl] at h; cases h),
      if_neg (by rintro ⟨-, h⟩; rw [show isPre echoTok (uaTok ++ w) = false from rfl] at h; cases h),
      if_pos ⟨rfl, hpre⟩]
  · intro h1 h2 h3 h4 h5
    unfold handleRequest
    rw [if_neg h1, if_neg h2, if_neg h3, if_neg h4, if_neg h5]
  · intro hpre
    obtain ⟨w, hw⟩ := (isPre_iff ['/', 'f', 'i', 'l', 'e', '2'] tgt).1 hpre
    subst hw
    exact (isPre_iff _ _).2 ⟨'2' :: w, rfl⟩

/-- C3: gzip negotiation for the three body-producing GET families (`/echo`,
`/user-agent`, `/file`), all of which answer through `respondWith`: when the
`accept-encoding` value contains the substring `gzip`, the body is the gzip
compression of the uncompressed payload (decompressing returns it exactly),
`Content-Encoding: gzip` is set and `Content-Length` is the compressed
length, with compression failure answered by 500; otherwise the payload is
sent uncompressed with its own byte length, and the echo and user-agent
handlers feed their respective payloads into this negotiation. -/
theorem C3_gzip_negotiation (gz : Gzip)
    (hrt : ∀ b c, gz.compress b = some c → gz.decompress c = some b)
    (headers : Headers) (ct : Str) (B : List Nat) :
    (∀ enc, headers.get acceptEncodingK = some enc →
       isSub gzipTok enc = true →
       (∀ c, gz.compress B = some c →
          respondWith gz headers ct B
              = ⟨200, some ct, some gzipTok, some c.length, c⟩
            ∧ gz.decompress (respondWith gz headers ct B).body = some B)
       ∧ (gz.compress B = none → respondWith gz headers ct B = mkStatus 500))
    ∧ (∀ enc, headers.get acceptEncodingK = some enc →
        isSub gzipTok enc = false →
        respondWith gz headers ct B = ⟨200, some ct, none, some B.length, B⟩)
    ∧ (headers.get acceptEncodingK = none →
        respondWith gz headers ct B = ⟨200, some ct, none, some B.length, B⟩)
    ∧ (∀ tgt s, (splitOnC '/' tgt).getLast? = some s →
        handleEcho gz headers tgt
          = respondWith gz headers ctTextPlain (strBytes s))
    ∧ (∀ ua, headers.get userAgentK = some ua →
        handleUserAgent gz headers
          = respondWith gz headers ctTextPlain (strBytes ua)) := by
  refine ⟨?_, ?_, ?_, ?_, ?_⟩
  · intro enc henc hsub
    have hbase : respondWith gz headers ct B
        = match gz.compress B with
          | some body =>
              ⟨200, some ct, some gzipTok, some body.length, body⟩
          | none => mkStatus 500 := by
      unfold respondWith
      rw [henc]
      dsimp only
      rw [if_pos hsub]
    constructor
    · intro c hc
      have h1 : respondWith gz headers ct B
          = ⟨200, some ct, some gzipTok, some c.length, c⟩ := by
        rw [hbase, hc]
      exact ⟨h1, by rw [h1]; exact hrt B c hc⟩
    · intro hc
      rw [hbase, hc]
  · intro enc henc hsub
    unfold respondWith
    rw [henc]
    dsimp only
    rw [if_neg (by rw [hsub]; exact Bool.false_ne_true)]
  · intro henc
    unfold respondWith
    rw [henc]
  · intro tgt s hs
    unfold handleEcho
    rw [hs]
  · intro ua hua
    unfold handleUserAgent
    rw [hua]

/-- Unpacking a successful canonicalization. -/
theorem canon_some {fs : FS} {p q : PathBuf} (h : fs.canon p = some q) :
    q = fs.resolve p ∧ fs.existsP (fs.resolve p) = true := by
  unfold FS.canon at h
  dsimp only at h
  split at h
  · exact ⟨(Option.some.inj h).symm, by assumption⟩
  · cases h

/-- Resolved paths are absolute. -/
theorem resolve_abs (fs : FS) (p : PathBuf) : (fs.resolve p).abs = true := rfl

/-- Resolved paths have clean components. -/
theorem resolve_clean (fs : FS) (p : PathBuf) :
    ∀ x ∈ (fs.resolve p).comps, cleanComp x :=
  normComps_clean _

/-- Unpacking a successful `Path::starts_with`. -/
theorem startsWithPB_true {p q : PathBuf} (h : startsWithPB p q = true) :
    p.abs = q.abs ∧ isPre q.comps p.comps = true := by
  unfold startsWithPB at h
  simp only [Bool.and_eq_true, decide_eq_true_eq] at h
  exact h

/-- A directory that is a literal component-prefix of a resolved path is its
own resolved (canonical) form: it is absolute and its components are clean,
so normalization leaves it unchanged. -/
theorem resolve_base_self {fs : FS} {base p : PathBuf}
    (h : startsWithPB (fs.resolve p) base = true) : fs.resolve base = base := by
  obtain ⟨habs, hpre⟩ := startsWithPB_true h
  have hbabs : base.abs = true := by rw [← habs]; rfl
  have hbclean : ∀ x ∈ base.comps, cleanComp x :=
    clean_of_isPre hpre (resolve_clean fs p)
  unfold FS.resolve
  rw [if_pos hbabs, normComps_fix hbclean]
  cases base with
  | mk a c =>
    dsimp only at hbabs ⊢
    rw [hbabs]

/-- Requests of the `GET /file…` shape reach the file-GET arm. -/
theorem handleRequest_file_get {fs : FS} {gz : Gzip} {conf : Args}
    {req : HttpRequest} (hm : req.method = HttpMethod.GET)
    (hpre : isPre fileTok req.target = true) :
    handleRequest fs gz conf req
      = (handleFileGet fs gz conf.directory req.headers req.target, fs) := by
  have hroot : ¬ req.target = rootTok := by
    intro h
    have hlen := length_le_of_isPre hpre
    rw [h] at hlen
    simp [fileTok, rootTok] at hlen
  unfold handleRequest
  rw [if_neg (by rintro ⟨-, h⟩; exact hroot h),
    if_neg (by rintro ⟨h, -⟩; rw [hm] at h; cases h),
    if_pos ⟨hm, hpre⟩]

/-- Requests of the `POST /file…` shape reach the file-POST arm. -/
theorem handleRequest_file_post {fs : FS} {gz : Gzip} {conf : Args}
    {req : HttpRequest} (hm : req.method = HttpMethod.POST)
    (hpre : isPre fileTok req.target = true) :
    handleRequest fs gz conf req
      = handleFilePost fs conf.directory req.target req.body := by
  unfold handleRequest
  rw [if_neg (by rintro ⟨h, -⟩; rw [hm] at h; cases h), if_pos ⟨hm, hpre⟩]

/-- C1: for GET `/file…` requests with a configured base directory, the
handler joins the base with the final `/`-separated segment of the target and
canonicalizes the result; whenever that canonical path lies outside the
canonical base directory the response is 400 Bad Request with an empty body —
file contents are never returned. -/
theorem C1_traversal_guard (fs : FS) (gz : Gzip) (conf : Args)
    (req : HttpRequest) (base cbase n : PathBuf) (fileName : Str)
    (hdir : conf.directory = some base)
    (hm : req.method = HttpMethod.GET)
    (hpre : isPre fileTok req.target = true)
    (hlast : (splitOnC '/' req.target).getLast? = some fileName)
    (hcb : fs.canon base = some cbase)
    (hcn : fs.canon (base.join fileName) = some n)
    (hout : startsWithPB n cbase = false) :
    handleRequest fs gz conf req = (mkStatus 400, fs)
    ∧ (handleRequest fs gz conf req).1.body = [] := by
  obtain ⟨hneq, hex⟩ := canon_some hcn
  have hfalse : ¬ startsWithPB n base = true := by
    intro hc
    have hres : fs.resolve base = base := by
      rw [hneq] at hc
      exact resolve_base_self hc
    have hcbase : cbase = base := by
      obtain ⟨hc1, -⟩ := canon_some hcb
      rw [hc1, hres]
    rw [hcbase] at hout
    rw [hout] at hc
    cases hc
  have hfg : handleFileGet fs gz (some base) req.headers req.target
      = mkStatus 400 := by
    unfold handleFileGet
    rw [hlast]
    dsimp only
    rw [hcn]
    dsimp only
    rw [if_neg hfalse]
  have hall : handleRequest fs gz conf req = (mkStatus 400, fs) := by
    rw [handleRequest_file_get hm hpre, hdir, hfg]
  exact ⟨hall, by rw [hall]; rfl⟩

/-- C9 (implicit): a GET `/file…` request whose resolved path passes the
containment guard and names an existing file with non-UTF-8 contents is
answered 500 Internal Server Error (with an empty body, not the file's
bytes), because the read path decodes the file as a UTF-8 string. -/
theorem C9_non_utf8_file_500 (fs : FS) (gz : Gzip) (conf : Args)
    (req : HttpRequest) (base : PathBuf) (fileName : Str) (b : List Nat)
    (hdir : conf.directory = some base)
    (hm : req.method = HttpMethod.GET)
    (hpre : isPre fileTok req.target = true)
    (hlast : (splitOnC '/' req.target).getLast? = some fileName)
    (hfind : findFile fs.files (fs.resolve (base.join fileName)) = some b)
    (hin : startsWithPB (fs.resolve (base.join fileName)) base = true)
    (hbad : validUtf8 b = false) :
    handleRequest fs gz conf req = (mkStatus 500, fs)
    ∧ (handleRequest fs gz conf req).1.body = [] := by
  have hmem : (fs.files.map Prod.fst).contains
      (fs.resolve (base.join fileName)) = true := by
    unfold findFile at hfind
    cases hfq : fs.files.find?
        (fun e => e.1 == fs.resolve (base.join fileName)) with
    | none => rw [hfq] at hfind; cases hfind
    | some e =>
      have hmem1 : e ∈ fs.files := List.mem_of_find?_eq_some hfq
      have he1 : e.1 = fs.resolve (base.join fileName) := by
        simpa using List.find?_some hfq
      have hmap : e.1 ∈ fs.files.map Prod.fst :=
        List.mem_map_of_mem Prod.fst hmem1
      rw [he1] at hmap
      simpa using hmap
  have hex : fs.existsP (fs.resolve (base.join fileName)) = true := by
    unfold FS.existsP
    rw [hmem, Bool.or_true]
  have hcn : fs.canon (base.join fileName)
      = some (fs.resolve (base.join fileName)) := by
    unfold FS.canon
    dsimp only
    rw [if_pos hex]
  have hread : fs.readToString (base.join fileName) = none := by
    unfold FS.readToString
    rw [hfind]
    dsimp only
    rw [if_neg (by simp [hbad])]
  have hfg : handleFileGet fs gz (some base) req.headers req.target
      = mkStatus 500 := by
    unfold handleFileGet
    rw [hlast]
    dsimp only
    rw [hcn]
    dsimp only
    rw [if_pos hin, if_pos hex, hread]
  have hall : handleRequest fs gz conf req = (mkStatus 500, fs) := by
    rw [handleRequest_file_get hm hpre, hdir, hfg]
  exact ⟨hall, by rw [hall]; rfl⟩

/-- C2 (amended): `POST /file/<name>` with body `B` answered 201 followed by
`GET /file/<name>` without an `accept-encoding` header yields 200 with body
exactly `B`, provided `B` is valid UTF-8, the configured base directory is an
absolute path free of `.`/`..`/empty components, and `<name>` is a plain
segment (non-empty and neither `.` nor `..`). -/
theorem C2_round_trip (fs : FS) (gz : Gzip) (conf : Args)
    (reqPost reqGet : HttpRequest) (base : PathBuf) (name : Str)
    (B : List Nat)
    (hdir : conf.directory = some base)
    (hbabs : base.abs = true)
    (hbclean : ∀ x ∈ base.comps, cleanComp x)
    (hname : cleanComp name)
    (hpm : reqPost.method = HttpMethod.POST)
    (hpt : isPre fileTok reqPost.target = true)
    (hplast : (splitOnC '/' reqPost.target).getLast? = some name)
    (hpb : reqPost.body = some B)
    (hutf : validUtf8 B = true)
    (hgm : reqGet.method = HttpMethod.GET)
    (hgt : isPre fileTok reqGet.target = true)
    (hglast : (splitOnC '/' reqGet.target).getLast? = some name)
    (hgae : reqGet.headers.get acceptEncodingK = none)
    (h201 : (handleRequest fs gz conf reqPost).1.status = 201) :
    (handleRequest (handleRequest fs gz conf reqPost).2 gz conf reqGet).1.status
        = 200
    ∧ (handleRequest (handleRequest fs gz conf reqPost).2 gz conf reqGet).1.body
        = B
    ∧ (handleRequest (handleRequest fs gz conf reqPost).2
          gz conf reqGet).1.contentLength = some B.length := by
  have hjoin : base.join name = ⟨base.abs, base.comps ++ [name]⟩ := by
    unfold PathBuf.join
    rw [if_neg hname.1]
  have hclean2 : ∀ x ∈ base.comps ++ [name], cleanComp x := by
    intro x hx
    rcases List.mem_append.1 hx with h | h
    · exact hbclean x h
    · rw [List.mem_singleton] at h
      subst h
      exact hname
  have hres : ∀ g : FS, g.resolve (base.join name)
      = ⟨true, base.comps ++ [name]⟩ := by
    intro g
    rw [hjoin]
    unfold FS.resolve
    dsimp only
    rw [if_pos hbabs, normComps_fix hclean2]
  have hpost : handleRequest fs gz conf reqPost
      = handleFilePost fs (some base) reqPost.target reqPost.body := by
    rw [handleRequest_file_post hpm hpt, hdir]
  have hw : ∃ fs2, fs.writeFile (base.join name) B = some fs2
      ∧ (handleRequest fs gz conf reqPost).2 = fs2 := by
    cases hwf : fs.writeFile (base.join name) B with
    | none =>
      exfalso
      rw [hpost] at h201
      unfold handleFilePost at h201
      rw [hplast] at h201
      dsimp only at h201
      rw [hpb] at h201
      dsimp only at h201
      rw [hwf] at h201
      simp [mkStatus] at h201
    | some fs2 =>
      refine ⟨fs2, rfl, ?_⟩
      rw [hpost]
      unfold handleFilePost
      rw [hplast]
      dsimp only
      rw [hpb]
      dsimp only
      rw [hwf]
  obtain ⟨fs2, hwf, hfs2⟩ := hw
  have hfs2eq : fs2 = { fs with files := (⟨true, base.comps ++ [name]⟩, B) :: fs.files.filter (fun e => e.1 != (⟨true, base.comps ++ [name]⟩ : PathBuf)) } := by
    unfold FS.writeFile at hwf
    dsimp only at hwf
    rw [hres fs] at hwf
    split at hwf
    · cases hwf
    · split at hwf
      · cases hwf
      · split at hwf
        · exact (Option.some.inj hwf).symm
        · cases hwf
  have hexists : fs2.existsP ⟨true, base.comps ++ [name]⟩ = true := by
    rw [hfs2eq]
    unfold FS.existsP
    simp
  have hcanon : fs2.canon (base.join name)
      = some ⟨true, base.comps ++ [name]⟩ := by
    unfold FS.canon
    dsimp only
    rw [hres fs2, if_pos hexists]
  have hsw : startsWithPB ⟨true, base.comps ++ [name]⟩ base = true := by
    unfold startsWithPB
    simp [hbabs, isPre_append]
  have hff : findFile fs2.files ⟨true, base.comps ++ [name]⟩ = some B := by
    rw [hfs2eq]
    unfold findFile
    rw [List.find?_cons_of_pos _ (by simp)]
    rfl
  have hread : fs2.readToString (base.join name) = some B := by
    unfold FS.readToString
    rw [hres fs2, hff]
    dsimp only
    rw [if_pos hutf]
  have hresp : respondWith gz reqGet.headers ctOctetStream B
      = ⟨200, some ctOctetStream, none, some B.length, B⟩ := by
    unfold respondWith
    rw [hgae]
  have hfg : handleFileGet fs2 gz (some base) reqGet.headers reqGet.target
      = ⟨200, some ctOctetStream, none, some B.length, B⟩ := by
    unfold handleFileGet
    rw [hglast]
    dsimp only
    rw [hcanon]
    dsimp only
    rw [if_pos hsw, if_pos hexists, hread]
    dsimp only
    rw [hresp]
  have hget : handleRequest fs2 gz conf reqGet
      = (handleFileGet fs2 gz (some base) reqGet.headers reqGet.target, fs2) := by
    rw [handleRequest_file_get hgm hgt, hdir]
  refine ⟨?_, ?_, ?_⟩ <;> rw [hfs2, hget, hfg]

/-- Counterexample to C2 as stated: over base `/d`, `POST /file/n` with the
(non-UTF-8) one-byte body `0xFF` is answered 201, yet the subsequent
`GET /file/n` without an `accept-encoding` header is answered 500 — not 200
with body `0xFF` — because the read path decodes the file as UTF-8. -/
theorem C2_round_trip_counterexample :
    (handleRequest fsFix gzId confD reqPostN).1.status = 201
    ∧ (handleRequest (handleRequest fsFix gzId confD reqPostN).2
        gzId confD reqGetN).1.status = 500
    ∧ ¬ ((handleRequest (handleRequest fsFix gzId confD reqPostN).2
          gzId confD reqGetN).1.status = 200
        ∧ (handleRequest (handleRequest fsFix gzId confD reqPostN).2
            gzId confD reqGetN).1.body = [255]) := by
  refine ⟨by decide, by decide, by decide⟩

/-- Witness for C2 at base `/d`, name `h`, body `hi`. -/
theorem C2_round_trip_witness :
    (handleRequest fsFix gzId confD reqPostOk).1.status = 201
    ∧ validUtf8 [104, 105] = true
    ∧ (handleRequest (handleRequest fsFix gzId confD reqPostOk).2
        gzId confD reqGetOk).1.status = 200
    ∧ (handleRequest (handleRequest fsFix gzId confD reqPostOk).2
        gzId confD reqGetOk).1.body = [104, 105] := by
  have h := C2_round_trip fsFix gzId confD reqPostOk reqGetOk dirD ['h']
    [104, 105] rfl rfl (by decide) (by decide) rfl (by decide) (by decide)
    rfl (by decide) rfl (by decide) (by decide) rfl (by decide)
  exact ⟨by decide, by decide, h.1, h.2.1⟩

/-- Witness for C1 at target `/file/..`: the canonical path `/` lies outside
the canonical base `/d` and the response is 400. -/
theorem C1_traversal_guard_witness :
    fsFix.canon dirD = some dirD
    ∧ fsFix.canon (dirD.join ['.', '.']) = some dirRoot
    ∧ startsWithPB dirRoot dirD = false
    ∧ handleRequest fsFix gzId confD reqTrav = (mkStatus 400, fsFix) := by
  refine ⟨by decide, by decide, by decide, ?_⟩
  exact (C1_traversal_guard fsFix gzId confD reqTrav dirD dirD dirRoot
    ['.', '.'] rfl rfl (by decide) (by decide) (by decide) (by decide)
    (by decide)).1

/-- Witness for C3 on the identity codec with `accept-encoding: gzip`. -/
theorem C3_gzip_negotiation_witness :
    Headers.get hdrsAE acceptEncodingK = some gzipTok
    ∧ isSub gzipTok gzipTok = true
    ∧ respondWith gzId hdrsAE ctTextPlain [104, 105]
        = ⟨200, some ctTextPlain, some gzipTok, some 2, [104, 105]⟩
    ∧ gzId.decompress
        (respondWith gzId hdrsAE ctTextPlain [104, 105]).body
        = some [104, 105] := by
  have h := ((C3_gzip_negotiation gzId
      (fun b c hc => by cases hc; rfl) hdrsAE ctTextPlain [104, 105]).1
      gzipTok (by decide) (by decide)).1 [104, 105] rfl
  exact ⟨by decide, by decide, h.1.trans (by decide), h.2⟩

/-- Witness for C4 on a concrete stream with `Content-Length: 3` and four
pending bytes: exactly three are read. -/
theorem C4_content_length_exact_read_witness :
    parseUsize ['3'] = some 3
    ∧ 3 ≤ sFix.rest.length
    ∧ parseRequest sFix
        = .ok ⟨"/file/f".toList, .POST, [(contentLengthK, ['3'])],
            some [72, 105, 33]⟩
    ∧ (sFix.rest.take 3).length = 3 := by
  have h := ((C4_content_length_exact_read sFix
      "POST /file/f HTTP/1.1".toList ["Content-Length: 3".toList, []]
      "POST".toList "/file/f".toList ["HTTP/1.1".toList] .POST
      [(contentLengthK, ['3'])] ['3']
      rfl (by decide) (by decide) (by decide) (by decide)).1 3
      (by decide)).1 (by decide)
  exact ⟨by decide, by decide, h.1.trans (by decide), h.2.1⟩

/-- Witness for C5 on the header line `Host: x`. -/
theorem C5_header_line_witness :
    strTrim "Host: x".toList ≠ []
    ∧ splitOnce ':' "Host: x".toList = some ("Host".toList, " x".toList)
    ∧ parseHeaders ["Host: x".toList] []
        = parseHeaders []
            [(strLower (strTrim "Host".toList), strTrim " x".toList)] := by
  refine ⟨by decide, by decide, ?_⟩
  exact (C5_header_line "Host: x".toList [] [] (by decide)).2
    "Host".toList " x".toList (by decide)

/-- Witness for C6 on the request line `FOO / HTTP/1.1`. -/
theorem C6_invalid_method_no_response_witness :
    "FOO".toList ∉ methodNames
    ∧ parseRequest sBadFix = .error .invalidMethod
    ∧ connectionOutput fsFix gzId confD sBadFix = []
    ∧ connectionLog sBadFix = some .invalidMethod := by
  have h := C6_invalid_method_no_response fsFix gzId confD sBadFix
    "FOO / HTTP/1.1".toList [] "FOO".toList ["/".toList, "HTTP/1.1".toList]
    rfl (by decide) (by decide)
  exact ⟨by decide, h.1, h.2.1, h.2.2⟩

/-- Witness for C7 at target `/file2` with no configured directory: the
request is routed to the `/file` GET family (observable as its 503). -/
theorem C7_prefix_routing_witness :
    isPre ['/', 'f', 'i', 'l', 'e', '2'] reqFile2.target = true
    ∧ handleRequest fsFix gzId ⟨none⟩ reqFile2
        = (handleFileGet fsFix gzId none reqFile2.headers reqFile2.target,
            fsFix)
    ∧ (handleRequest fsFix gzId ⟨none⟩ reqFile2).1.status = 503 := by
  have h := C7_prefix_routing fsFix gzId ⟨none⟩ reqFile2
  have h2 := h.2.2.1 rfl (h.2.2.2.2.2.2 (by decide))
  exact ⟨by decide, h2, by decide⟩

/-- Witness for C8 on `GET /echo/ab`. -/
theorem C8_content_length_exact_witness :
    (handleRequest fsFix gzId confD reqEchoFix).1.contentLength = some 2
    ∧ 2 = (handleRequest fsFix gzId confD reqEchoFix).1.body.length :=
  ⟨by decide,
    (C8_content_length_exact fsFix gzId confD reqEchoFix).1 2 (by decide)⟩

/-- Witness for C9 on the stored non-UTF-8 file `/d/g`. -/
theorem C9_non_utf8_file_500_witness :
    findFile fsFix.files (fsFix.resolve (dirD.join ['g'])) = some [255]
    ∧ validUtf8 [255] = false
    ∧ handleRequest fsFix gzId confD reqBadUtf = (mkStatus 500, fsFix) := by
  refine ⟨by decide, by decide, ?_⟩
  exact (C9_non_utf8_file_500 fsFix gzId confD reqBadUtf dirD ['g'] [255]
    rfl rfl (by decide) (by decide) (by decide) (by decide) (by decide)).1
